import Mathlib

/-!
Verification of the `unit_conversion` crate (energy and length unit tables).

The crate's arithmetic is IEEE-754 binary64 (`f64`).  We embed `f64` values as
exact rationals and model every floating-point operation by `fl`, rounding a
rational to the nearest binary64 value (round-to-nearest, ties-to-even), with
an unbounded exponent range.  All quantities appearing in the crate are far
from the overflow and subnormal ranges, so on them this model agrees
bit-for-bit with hardware `f64` arithmetic.  A decimal literal `l` of the Rust
source is embedded as `fl l`, the `f64` value the literal denotes.

A `HashMap` lookup table is embedded as a function `String → Option v` whose
`some` results are exactly the table's inserted entries, and the `panic!` arm
of `bohr_to_metres` is embedded as `none`.
-/

namespace UnitConversion

/-- Floor of the base-2 logarithm, driven by a fuel argument so that the
recursion is structural. -/
def log2fuel : Nat → Nat → Nat
  | 0, _ => 0
  | f + 1, n => if n < 2 then 0 else log2fuel f (n / 2) + 1

/-- Floor of the base-2 logarithm of a natural number (`natLog2 0 = 0`). -/
def natLog2 (n : Nat) : Nat :=
  log2fuel n n

/-- For a positive rational `q`, the exponent `e` with `2 ^ e ≤ q < 2 ^ (e + 1)`. -/
def floorLog2 (q : ℚ) : ℤ :=
  if (2 : ℚ) ^ ((natLog2 q.num.natAbs : ℤ) - (natLog2 q.den : ℤ)) ≤ q
  then (natLog2 q.num.natAbs : ℤ) - (natLog2 q.den : ℤ)
  else (natLog2 q.num.natAbs : ℤ) - (natLog2 q.den : ℤ) - 1

/-- Round a rational to the nearest integer, ties to the even integer. -/
def roundEven (s : ℚ) : ℤ :=
  if s - ⌊s⌋ < 1 / 2 then ⌊s⌋
  else if 1 / 2 < s - ⌊s⌋ then ⌊s⌋ + 1
  else if ⌊s⌋ % 2 = 0 then ⌊s⌋ else ⌊s⌋ + 1

/-- Round a positive rational to the nearest binary64 value (53-bit
significand, round-to-nearest ties-to-even, unbounded exponent range). -/
def flPos (q : ℚ) : ℚ :=
  (roundEven (q * 2 ^ ((52 : ℤ) - floorLog2 q)) : ℚ) * 2 ^ (floorLog2 q - (52 : ℤ))

/-- Round a rational to the nearest binary64 value. -/
def fl (q : ℚ) : ℚ :=
  if q < 0 then -flPos (-q) else if q = 0 then 0 else flPos q

/-- Binary64 multiplication: multiply exactly, then round. -/
def fmul (x y : ℚ) : ℚ :=
  fl (x * y)

/-- Binary64 division: divide exactly, then round. -/
def fdiv (x y : ℚ) : ℚ :=
  fl (x / y)

namespace Energy

/-- Source constant `EV_REC_CENTIMETRES_CONVERSION_FACTOR: f64 = 8_065.543_937`. -/
def EV_REC_CENTIMETRES_CONVERSION_FACTOR : ℚ :=
  fl 8065.543937

/-- Source constant
`REC_CENTIMETRES_EV_CONVERSION_FACTOR: f64 = 1.239_841_984_332 * 10e-8`:
an `f64` product of the two literals, evaluated at compile time. -/
def REC_CENTIMETRES_EV_CONVERSION_FACTOR : ℚ :=
  fmul (fl 1.239841984332) (fl 10e-8)

/-- Source `fn unity(energy_in_arb: f64) -> f64 { energy_in_arb }`. -/
def unity (energy_in_arb : ℚ) : ℚ :=
  energy_in_arb

/-- Source `fn ev_2_rcm`: `energy_in_ev * EV_REC_CENTIMETRES_CONVERSION_FACTOR`. -/
def ev_2_rcm (energy_in_ev : ℚ) : ℚ :=
  fmul energy_in_ev EV_REC_CENTIMETRES_CONVERSION_FACTOR

/-- Source `fn rcm_2_ev`: `energy_in_rcm * REC_CENTIMETRES_EV_CONVERSION_FACTOR`. -/
def rcm_2_ev (energy_in_rcm : ℚ) : ℚ :=
  fmul energy_in_rcm REC_CENTIMETRES_EV_CONVERSION_FACTOR

/-- Source map `CONVERT_2_RCM_FROM`, a `HashMap` holding exactly the entries
`"rcm" ↦ unity` and `"eV" ↦ ev_2_rcm`; lookup of any other key fails. -/
def CONVERT_2_RCM_FROM (k : String) : Option (ℚ → ℚ) :=
  if k = "rcm" then some unity
  else if k = "eV" then some ev_2_rcm
  else none

/-- Source map `CONVERT_2_EV_FROM`, a `HashMap` holding exactly the entries
`"eV" ↦ unity` and `"rcm" ↦ rcm_2_ev`; lookup of any other key fails. -/
def CONVERT_2_EV_FROM (k : String) : Option (ℚ → ℚ) :=
  if k = "eV" then some unity
  else if k = "rcm" then some rcm_2_ev
  else none

end Energy

namespace Length

/-- Source constant `BOHR_RADIUS_TO_METRES: f64 = 5.291_772_109_03e-11`. -/
def BOHR_RADIUS_TO_METRES : ℚ :=
  fl 5.29177210903e-11

/-- Source constant `CENTI: f64 = 1e-2`. -/
def CENTI : ℚ :=
  fl 1e-2

/-- Source constant `MILLI: f64 = 1e-3`. -/
def MILLI : ℚ :=
  fl 1e-3

/-- Source constant `MIKRO: f64 = 1e-6`. -/
def MIKRO : ℚ :=
  fl 1e-6

/-- Source constant `NANO: f64 = 1e-9`. -/
def NANO : ℚ :=
  fl 1e-9

/-- Source constant `PICO: f64 = 1e-12`. -/
def PICO : ℚ :=
  fl 1e-12

/-- Source `fn unity(v: f64, prefix: &str) -> f64 { v }`: the second argument
is ignored and the function can never fail. -/
def unity (v : ℚ) (_pfx : String) : Option ℚ :=
  some v

/-- Source `fn bohr_to_metres(b: f64, prefix: &str) -> f64`: matches the
prefix against the six recognized strings; the `panic!` arm taken for every
other prefix is embedded as `none`. -/
def bohr_to_metres (b : ℚ) (pfx : String) : Option ℚ :=
  if pfx = "pm" then some (fdiv (fmul b BOHR_RADIUS_TO_METRES) PICO)
  else if pfx = "nm" then some (fdiv (fmul b BOHR_RADIUS_TO_METRES) NANO)
  else if pfx = "mu" then some (fdiv (fmul b BOHR_RADIUS_TO_METRES) MIKRO)
  else if pfx = "mm" then some (fdiv (fmul b BOHR_RADIUS_TO_METRES) MILLI)
  else if pfx = "cm" then some (fdiv (fmul b BOHR_RADIUS_TO_METRES) CENTI)
  else if pfx = "m" then some (fmul b BOHR_RADIUS_TO_METRES)
  else none

/-- Source `fn bohr_to_ang(b: f64, prefix: &str) -> f64`: computes
`bohr_to_metres(b, "nm") * 10.0`, ignoring its own prefix argument. -/
def bohr_to_ang (b : ℚ) (_pfx : String) : Option ℚ :=
  (bohr_to_metres b "nm").map fun v => fmul v (fl 10)

/-- Source map `CONVERT_BOHR_TO_METRES`, a `HashMap` holding exactly the
entries `"bohr" ↦ unity` and `"m" ↦ bohr_to_metres`. -/
def CONVERT_BOHR_TO_METRES (k : String) : Option (ℚ → String → Option ℚ) :=
  if k = "bohr" then some unity
  else if k = "m" then some bohr_to_metres
  else none

/-- Source map `CONVERT_BOHR_TO_ANG`, a `HashMap` holding exactly the
entries `"bohr" ↦ unity` and `"ang" ↦ bohr_to_ang`. -/
def CONVERT_BOHR_TO_ANG (k : String) : Option (ℚ → String → Option ℚ) :=
  if k = "bohr" then some unity
  else if k = "ang" then some bohr_to_ang
  else none

end Length

/-! Correctness of the exponent search and the rounding step, used to
evaluate `fl` at the concrete values appearing in the crate. -/

theorem log2fuel_spec :
    ∀ f n : ℕ, n ≤ f → 1 ≤ n →
      2 ^ log2fuel f n ≤ n ∧ n < 2 ^ (log2fuel f n + 1) := by
  intro f
  induction f with
  | zero => intro n hf h1; omega
  | succ f ih =>
    intro n hf h1
    simp only [log2fuel]
    by_cases h2 : n < 2
    · rw [if_pos h2]
      constructor
      · simpa using h1
      · simpa using h2
    · rw [if_neg h2]
      have hn2 : 1 ≤ n / 2 := by omega
      have hf2 : n / 2 ≤ f := by omega
      obtain ⟨ha, hb⟩ := ih (n / 2) hf2 hn2
      constructor
      · have h := (Nat.le_div_iff_mul_le (by norm_num)).1 ha
        calc 2 ^ (log2fuel f (n / 2) + 1)
            = 2 ^ log2fuel f (n / 2) * 2 := by rw [pow_succ]
          _ ≤ n := h
      · have h := (Nat.div_lt_iff_lt_mul (by norm_num)).1 hb
        calc n < 2 ^ (log2fuel f (n / 2) + 1) * 2 := h
          _ = 2 ^ (log2fuel f (n / 2) + 1 + 1) := by ring

theorem natLog2_spec (n : ℕ) (h : 1 ≤ n) :
    2 ^ natLog2 n ≤ n ∧ n < 2 ^ (natLog2 n + 1) :=
  log2fuel_spec n n le_rfl h

theorem floorLog2_spec (q : ℚ) (hq : 0 < q) :
    (2 : ℚ) ^ floorLog2 q ≤ q ∧ q < 2 ^ (floorLog2 q + 1) := by
  have hnum : 0 < q.num := Rat.num_pos.2 hq
  have ha1 : 1 ≤ q.num.natAbs := by omega
  have hb1 : 1 ≤ q.den := q.den_pos
  obtain ⟨hA1, hA2⟩ := natLog2_spec q.num.natAbs ha1
  obtain ⟨hB1, hB2⟩ := natLog2_spec q.den hb1
  set k := natLog2 q.num.natAbs with hk
  set l := natLog2 q.den with hl
  have hA1' : (2 : ℚ) ^ (k : ℤ) ≤ (q.num.natAbs : ℚ) := by
    rw [zpow_natCast]; exact_mod_cast hA1
  have hA2' : (q.num.natAbs : ℚ) < 2 ^ ((k : ℤ) + 1) := by
    rw [show (k : ℤ) + 1 = ((k + 1 : ℕ) : ℤ) by push_cast; ring, zpow_natCast]
    exact_mod_cast hA2
  have hB1' : (2 : ℚ) ^ (l : ℤ) ≤ (q.den : ℚ) := by
    rw [zpow_natCast]; exact_mod_cast hB1
  have hB2' : (q.den : ℚ) < 2 ^ ((l : ℤ) + 1) := by
    rw [show (l : ℤ) + 1 = ((l + 1 : ℕ) : ℤ) by push_cast; ring, zpow_natCast]
    exact_mod_cast hB2
  have hden0 : (0 : ℚ) < (q.den : ℚ) := by exact_mod_cast hb1
  have hq_eq : q = (q.num.natAbs : ℚ) / (q.den : ℚ) := by
    have h1 : (q.num.natAbs : ℚ) = (q.num : ℚ) := by
      rw [Int.cast_natAbs]
      exact_mod_cast abs_of_nonneg hnum.le
    rw [h1, Rat.num_div_den]
  have hupper : q < 2 ^ ((k : ℤ) + 1 - l) := by
    rw [hq_eq, zpow_sub₀ two_ne_zero, div_lt_div_iff₀ hden0 (by positivity)]
    calc (q.num.natAbs : ℚ) * 2 ^ (l : ℤ)
        < 2 ^ ((k : ℤ) + 1) * 2 ^ (l : ℤ) :=
          mul_lt_mul_of_pos_right hA2' (by positivity)
      _ ≤ 2 ^ ((k : ℤ) + 1) * (q.den : ℚ) :=
          mul_le_mul_of_nonneg_left hB1' (by positivity)
  have hlower : (2 : ℚ) ^ ((k : ℤ) - (l + 1)) < q := by
    rw [hq_eq, zpow_sub₀ two_ne_zero, div_lt_div_iff₀ (by positivity) hden0]
    calc (2 : ℚ) ^ (k : ℤ) * (q.den : ℚ)
        < 2 ^ (k : ℤ) * 2 ^ ((l : ℤ) + 1) :=
          mul_lt_mul_of_pos_left hB2' (by positivity)
      _ ≤ (q.num.natAbs : ℚ) * 2 ^ ((l : ℤ) + 1) :=
          mul_le_mul_of_nonneg_right hA1' (by positivity)
  have hfl : floorLog2 q =
      if (2 : ℚ) ^ ((k : ℤ) - l) ≤ q then (k : ℤ) - l else (k : ℤ) - l - 1 := rfl
  rw [hfl]
  split_ifs with h
  · refine ⟨h, ?_⟩
    rw [show (k : ℤ) - l + 1 = (k : ℤ) + 1 - l by ring]
    exact hupper
  · constructor
    · rw [show (k : ℤ) - l - 1 = (k : ℤ) - (l + 1) by ring]
      exact hlower.le
    · rw [show (k : ℤ) - l - 1 + 1 = (k : ℤ) - l by ring]
      exact not_le.1 h

theorem floorLog2_unique (q : ℚ) (e : ℤ) (hq : 0 < q)
    (h1 : (2 : ℚ) ^ e ≤ q) (h2 : q < 2 ^ (e + 1)) : floorLog2 q = e := by
  obtain ⟨H1, H2⟩ := floorLog2_spec q hq
  by_contra hne
  rcases lt_or_gt_of_ne hne with h | h
  · have hle : (2 : ℚ) ^ (floorLog2 q + 1) ≤ 2 ^ e :=
      zpow_le_zpow_right₀ (by norm_num) (by omega)
    linarith
  · have hle : (2 : ℚ) ^ (e + 1) ≤ 2 ^ floorLog2 q :=
      zpow_le_zpow_right₀ (by norm_num) (by omega)
    linarith

theorem roundEven_down (s : ℚ) (m : ℤ) (hm : ⌊s⌋ = m) (h : s - m < 1 / 2) :
    roundEven s = m := by
  unfold roundEven
  rw [hm, if_pos h]

theorem roundEven_up (s : ℚ) (m : ℤ) (hm : ⌊s⌋ = m) (h : 1 / 2 < s - m) :
    roundEven s = m + 1 := by
  unfold roundEven
  rw [hm, if_neg (by linarith), if_pos h]

theorem fl_eq_of (q r : ℚ) (e m : ℤ) (hq : 0 < q)
    (h1 : (2 : ℚ) ^ e ≤ q) (h2 : q < 2 ^ (e + 1))
    (hm : roundEven (q * 2 ^ ((52 : ℤ) - e)) = m)
    (hr : (m : ℚ) * 2 ^ (e - (52 : ℤ)) = r) : fl q = r := by
  have he : floorLog2 q = e := floorLog2_unique q e hq h1 h2
  unfold fl
  rw [if_neg (not_lt.2 hq.le), if_neg hq.ne']
  unfold flPos
  rw [he, hm, hr]

/-! Concrete binary64 evaluations of the constants and intermediate
products appearing in the crate, each derived with `fl_eq_of`. -/

/-- Binary64 value of the literal `8_065.543_937`. -/
theorem fl_ev_factor_lit : fl (8065.543937 : ℚ) = (8868159343069718 : ℚ) / 2 ^ 40 :=
  fl_eq_of _ _ 12 8868159343069718 (by norm_num) (by norm_num) (by norm_num)
    ((roundEven_up _ 8868159343069717
      (by rw [Int.floor_eq_iff]; exact ⟨by norm_num, by norm_num⟩)
      (by norm_num)).trans (by norm_num))
    (by norm_num)

/-- Binary64 value of the literal `1.239_841_984_332`. -/
theorem fl_rec_mantissa_lit : fl (1.239841984332 : ℚ) = (5583751898635892 : ℚ) / 2 ^ 52 :=
  fl_eq_of _ _ 0 5583751898635892 (by norm_num) (by norm_num) (by norm_num)
    ((roundEven_up _ 5583751898635891
      (by rw [Int.floor_eq_iff]; exact ⟨by norm_num, by norm_num⟩)
      (by norm_num)).trans (by norm_num))
    (by norm_num)

/-- Binary64 value of the literal `10e-8`. -/
theorem fl_ten_em8_lit : fl (10e-8 : ℚ) = (7555786372591432 : ℚ) / 2 ^ 76 :=
  fl_eq_of _ _ (-24) 7555786372591432 (by norm_num) (by norm_num) (by norm_num)
    (roundEven_down _ 7555786372591432
      (by rw [Int.floor_eq_iff]; exact ⟨by norm_num, by norm_num⟩)
      (by norm_num))
    (by norm_num)

/-- Binary64 value of the decimal literal `1.239841984332e-7`. -/
theorem fl_rec_target_lit : fl (1.239841984332e-7 : ℚ) = (4683990584691223 : ℚ) / 2 ^ 75 :=
  fl_eq_of _ _ (-23) 4683990584691223 (by norm_num) (by norm_num) (by norm_num)
    ((roundEven_up _ 4683990584691222
      (by rw [Int.floor_eq_iff]; exact ⟨by norm_num, by norm_num⟩)
      (by norm_num)).trans (by norm_num))
    (by norm_num)

/-- Binary64 value of the literal `5.291_772_109_03e-11`. -/
theorem fl_bohr_lit : fl (5.29177210903e-11 : ℚ) = (8188620715677347 : ℚ) / 2 ^ 87 :=
  fl_eq_of _ _ (-35) 8188620715677347 (by norm_num) (by norm_num) (by norm_num)
    (roundEven_down _ 8188620715677347
      (by rw [Int.floor_eq_iff]; exact ⟨by norm_num, by norm_num⟩)
      (by norm_num))
    (by norm_num)

/-- Binary64 value of the literal `1e-9`. -/
theorem fl_nano_lit : fl (1e-9 : ℚ) = (4835703278458517 : ℚ) / 2 ^ 82 :=
  fl_eq_of _ _ (-30) 4835703278458517 (by norm_num) (by norm_num) (by norm_num)
    ((roundEven_up _ 4835703278458516
      (by rw [Int.floor_eq_iff]; exact ⟨by norm_num, by norm_num⟩)
      (by norm_num)).trans (by norm_num))
    (by norm_num)

/-- Binary64 value of the literal `10.0` (exactly representable). -/
theorem fl_ten_lit : fl (10 : ℚ) = (10 : ℚ) :=
  fl_eq_of _ _ 3 5629499534213120 (by norm_num) (by norm_num) (by norm_num)
    (roundEven_down _ 5629499534213120
      (by rw [Int.floor_eq_iff]; exact ⟨by norm_num, by norm_num⟩)
      (by norm_num))
    (by norm_num)

/-- Binary64 value of the literal `1e10` (exactly representable). -/
theorem fl_e10_lit : fl (1e10 : ℚ) = (10000000000 : ℚ) :=
  fl_eq_of _ _ 33 5242880000000000 (by norm_num) (by norm_num) (by norm_num)
    (roundEven_down _ 5242880000000000
      (by rw [Int.floor_eq_iff]; exact ⟨by norm_num, by norm_num⟩)
      (by norm_num))
    (by norm_num)

/-- Binary64 value of the decimal literal `5.29177210903e-2`. -/
theorem fl_nm_target_lit : fl (5.29177210903e-2 : ℚ) = (7626247327474269 : ℚ) / 2 ^ 57 :=
  fl_eq_of _ _ (-5) 7626247327474269 (by norm_num) (by norm_num) (by norm_num)
    (roundEven_down _ 7626247327474269
      (by rw [Int.floor_eq_iff]; exact ⟨by norm_num, by norm_num⟩)
      (by norm_num))
    (by norm_num)

/-- Binary64 value of the decimal literal `5.29177210903e-1`. -/
theorem fl_ang_target_lit : fl (5.29177210903e-1 : ℚ) = (4766404579671418 : ℚ) / 2 ^ 53 :=
  fl_eq_of _ _ (-1) 4766404579671418 (by norm_num) (by norm_num) (by norm_num)
    (roundEven_down _ 4766404579671418
      (by rw [Int.floor_eq_iff]; exact ⟨by norm_num, by norm_num⟩)
      (by norm_num))
    (by norm_num)

/-- Binary64 value of the compile-time product `1.239_841_984_332 * 10e-8`. -/
theorem fl_rec_product : fl ((5583751898635892 : ℚ) / 2 ^ 52 * ((7555786372591432 : ℚ) / 2 ^ 76)) = (4683990584691223 : ℚ) / 2 ^ 75 :=
  fl_eq_of _ _ (-23) 4683990584691223 (by norm_num) (by norm_num) (by norm_num)
    (roundEven_down _ 4683990584691223
      (by rw [Int.floor_eq_iff]; exact ⟨by norm_num, by norm_num⟩)
      (by norm_num))
    (by norm_num)

/-- Binary64 value of re-rounding the `f64` bohr-radius constant (identity). -/
theorem fl_bohr_idem : fl ((8188620715677347 : ℚ) / 2 ^ 87) = (8188620715677347 : ℚ) / 2 ^ 87 :=
  fl_eq_of _ _ (-35) 8188620715677347 (by norm_num) (by norm_num) (by norm_num)
    (roundEven_down _ 8188620715677347
      (by rw [Int.floor_eq_iff]; exact ⟨by norm_num, by norm_num⟩)
      (by norm_num))
    (by norm_num)

/-- Binary64 value of re-rounding the `f64` eV-to-rcm constant (identity). -/
theorem fl_ev_factor_idem : fl ((8868159343069718 : ℚ) / 2 ^ 40) = (8868159343069718 : ℚ) / 2 ^ 40 :=
  fl_eq_of _ _ 12 8868159343069718 (by norm_num) (by norm_num) (by norm_num)
    (roundEven_down _ 8868159343069718
      (by rw [Int.floor_eq_iff]; exact ⟨by norm_num, by norm_num⟩)
      (by norm_num))
    (by norm_num)

/-- Binary64 value of the quotient bohr-radius / nano. -/
theorem fl_bohr_div_nano : fl ((8188620715677347 : ℚ) / 2 ^ 87 / ((4835703278458517 : ℚ) / 2 ^ 82)) = (7626247327474269 : ℚ) / 2 ^ 57 :=
  fl_eq_of _ _ (-5) 7626247327474269 (by norm_num) (by norm_num) (by norm_num)
    ((roundEven_up _ 7626247327474268
      (by rw [Int.floor_eq_iff]; exact ⟨by norm_num, by norm_num⟩)
      (by norm_num)).trans (by norm_num))
    (by norm_num)

/-- Binary64 value of the product (bohr in nm) * 10.0. -/
theorem fl_nm_times_ten : fl ((7626247327474269 : ℚ) / 2 ^ 57 * 10) = (4766404579671418 : ℚ) / 2 ^ 53 :=
  fl_eq_of _ _ (-1) 4766404579671418 (by norm_num) (by norm_num) (by norm_num)
    (roundEven_down _ 4766404579671418
      (by rw [Int.floor_eq_iff]; exact ⟨by norm_num, by norm_num⟩)
      (by norm_num))
    (by norm_num)

/-- Binary64 value of the round-trip product at input 1.0. -/
theorem fl_roundtrip_product : fl ((8868159343069718 : ℚ) / 2 ^ 40 * ((4683990584691223 : ℚ) / 2 ^ 75)) = (4611686018227708 : ℚ) / 2 ^ 62 :=
  fl_eq_of _ _ (-10) 4611686018227708 (by norm_num) (by norm_num) (by norm_num)
    ((roundEven_up _ 4611686018227707
      (by rw [Int.floor_eq_iff]; exact ⟨by norm_num, by norm_num⟩)
      (by norm_num)).trans (by norm_num))
    (by norm_num)

/-- Binary64 value of 3.0 bohr in metres before prefix scaling. -/
theorem fl_three_bohr : fl (3 * ((8188620715677347 : ℚ) / 2 ^ 87)) = (6141465536758010 : ℚ) / 2 ^ 85 :=
  fl_eq_of _ _ (-33) 6141465536758010 (by norm_num) (by norm_num) (by norm_num)
    (roundEven_down _ 6141465536758010
      (by rw [Int.floor_eq_iff]; exact ⟨by norm_num, by norm_num⟩)
      (by norm_num))
    (by norm_num)

/-- Binary64 value of 3.0 bohr scaled to nanometres. -/
theorem fl_u_div_nano : fl ((6141465536758010 : ℚ) / 2 ^ 85 / ((4835703278458517 : ℚ) / 2 ^ 82)) = (5719685495605701 : ℚ) / 2 ^ 55 :=
  fl_eq_of _ _ (-3) 5719685495605701 (by norm_num) (by norm_num) (by norm_num)
    (roundEven_down _ 5719685495605701
      (by rw [Int.floor_eq_iff]; exact ⟨by norm_num, by norm_num⟩)
      (by norm_num))
    (by norm_num)

/-- Binary64 value of 3.0 bohr in angstrom as the code computes it. -/
theorem fl_v_times_ten : fl ((5719685495605701 : ℚ) / 2 ^ 55 * 10) = (7149606869507126 : ℚ) / 2 ^ 52 :=
  fl_eq_of _ _ 0 7149606869507126 (by norm_num) (by norm_num) (by norm_num)
    (roundEven_down _ 7149606869507126
      (by rw [Int.floor_eq_iff]; exact ⟨by norm_num, by norm_num⟩)
      (by norm_num))
    (by norm_num)

/-- Binary64 value of 3.0 bohr times 1e10, the spec's single-scaling form. -/
theorem fl_u_times_e10 : fl ((6141465536758010 : ℚ) / 2 ^ 85 * 10000000000) = (7149606869507127 : ℚ) / 2 ^ 52 :=
  fl_eq_of _ _ 0 7149606869507127 (by norm_num) (by norm_num) (by norm_num)
    ((roundEven_up _ 7149606869507126
      (by rw [Int.floor_eq_iff]; exact ⟨by norm_num, by norm_num⟩)
      (by norm_num)).trans (by norm_num))
    (by norm_num)

/-! The claims. -/

/-- C1: looking up "eV" in the to-reciprocal-centimetres table
`CONVERT_2_RCM_FROM` yields `ev_2_rcm`, which performs exactly the single
binary64 multiplication of its argument by the constant
`EV_REC_CENTIMETRES_CONVERSION_FACTOR` = the `f64` literal `8065.543937`. -/
theorem claim_C1_ev_lookup_single_multiply :
    Energy.CONVERT_2_RCM_FROM "eV" = some Energy.ev_2_rcm ∧
    Energy.EV_REC_CENTIMETRES_CONVERSION_FACTOR = fl 8065.543937 ∧
    ∀ x : ℚ, Energy.ev_2_rcm x = fmul x (fl 8065.543937) :=
  ⟨rfl, rfl, fun _ => rfl⟩

/-- C2: the function looked up under "m" in the bohr-to-metres table is
`bohr_to_metres`, which computes `b * BOHR_RADIUS_TO_METRES / prefixScale`
with the scale `1e-12`, `1e-9`, `1e-6`, `1e-3`, `1e-2` for the prefixes
"pm", "nm", "mu", "mm", "cm" and no division for "m"; at `b = 1.0` the "m"
result is exactly the `f64` value `5.29177210903e-11` and the "nm" result is
exactly the `f64` value `5.29177210903e-2`. -/
theorem claim_C2_bohr_to_metres_prefix_scaling :
    Length.CONVERT_BOHR_TO_METRES "m" = some Length.bohr_to_metres ∧
    (∀ b : ℚ,
      Length.bohr_to_metres b "pm" =
        some (fdiv (fmul b (fl 5.29177210903e-11)) (fl 1e-12)) ∧
      Length.bohr_to_metres b "nm" =
        some (fdiv (fmul b (fl 5.29177210903e-11)) (fl 1e-9)) ∧
      Length.bohr_to_metres b "mu" =
        some (fdiv (fmul b (fl 5.29177210903e-11)) (fl 1e-6)) ∧
      Length.bohr_to_metres b "mm" =
        some (fdiv (fmul b (fl 5.29177210903e-11)) (fl 1e-3)) ∧
      Length.bohr_to_metres b "cm" =
        some (fdiv (fmul b (fl 5.29177210903e-11)) (fl 1e-2)) ∧
      Length.bohr_to_metres b "m" = some (fmul b (fl 5.29177210903e-11))) ∧
    Length.bohr_to_metres 1 "m" = some (fl 5.29177210903e-11) ∧
    Length.bohr_to_metres 1 "nm" = some (fl 5.29177210903e-2) := by
  refine ⟨rfl, fun b => ⟨rfl, rfl, rfl, rfl, rfl, rfl⟩, ?_, ?_⟩
  · show some (fmul 1 Length.BOHR_RADIUS_TO_METRES) = _
    simp only [fmul, one_mul, Length.BOHR_RADIUS_TO_METRES]
    rw [fl_bohr_lit, fl_bohr_idem]
  · show some (fdiv (fmul 1 Length.BOHR_RADIUS_TO_METRES) Length.NANO) = _
    simp only [fmul, fdiv, one_mul, Length.BOHR_RADIUS_TO_METRES, Length.NANO]
    rw [fl_bohr_lit, fl_bohr_idem, fl_nano_lit, fl_bohr_div_nano, fl_nm_target_lit]

/-- C3: the compile-time `f64` product `1.239_841_984_332 * 10e-8` equals
exactly the `f64` value of the decimal literal `1.239841984332e-7`, and the
function under "rcm" in `CONVERT_2_EV_FROM` multiplies its argument by
exactly that value. -/
theorem claim_C3_rcm_constant_value :
    Energy.REC_CENTIMETRES_EV_CONVERSION_FACTOR = fl 1.239841984332e-7 ∧
    Energy.CONVERT_2_EV_FROM "rcm" = some Energy.rcm_2_ev ∧
    ∀ x : ℚ, Energy.rcm_2_ev x = fmul x (fl 1.239841984332e-7) := by
  have h : Energy.REC_CENTIMETRES_EV_CONVERSION_FACTOR = fl 1.239841984332e-7 := by
    simp only [Energy.REC_CENTIMETRES_EV_CONVERSION_FACTOR, fmul]
    rw [fl_rec_mantissa_lit, fl_ten_em8_lit, fl_rec_product, fl_rec_target_lit]
  refine ⟨h, rfl, fun x => ?_⟩
  show fmul x Energy.REC_CENTIMETRES_EV_CONVERSION_FACTOR = _
  rw [h]

/-- C4: `bohr_to_metres` reaches its panic arm (embedded as `none`) exactly
for prefixes outside the six recognized strings, and returns a numeric
result for each of the six. -/
theorem claim_C4_invalid_prefix_panics :
    ∀ (b : ℚ) (p : String),
      ((Length.bohr_to_metres b p).isSome ↔ p ∈ ["pm", "nm", "mu", "mm", "cm", "m"]) ∧
      (Length.bohr_to_metres b p = none ↔ p ∉ ["pm", "nm", "mu", "mm", "cm", "m"]) := by
  intro b p
  simp only [Length.bohr_to_metres, List.mem_cons, List.not_mem_nil]
  split_ifs with h1 h2 h3 h4 h5 h6 <;> simp_all

/-- C5: for each of the four lookup tables, lookup succeeds exactly on that
table's two supported unit names and fails (is `none`) on every other key. -/
theorem claim_C5_lookup_supported_keys :
    (∀ k : String, (Energy.CONVERT_2_RCM_FROM k).isSome ↔ k = "rcm" ∨ k = "eV") ∧
    (∀ k : String, (Energy.CONVERT_2_EV_FROM k).isSome ↔ k = "eV" ∨ k = "rcm") ∧
    (∀ k : String, (Length.CONVERT_BOHR_TO_METRES k).isSome ↔ k = "bohr" ∨ k = "m") ∧
    (∀ k : String, (Length.CONVERT_BOHR_TO_ANG k).isSome ↔ k = "bohr" ∨ k = "ang") := by
  refine ⟨fun k => ?_, fun k => ?_, fun k => ?_, fun k => ?_⟩ <;>
  · simp only [Energy.CONVERT_2_RCM_FROM, Energy.CONVERT_2_EV_FROM,
      Length.CONVERT_BOHR_TO_METRES, Length.CONVERT_BOHR_TO_ANG]
    split_ifs <;> simp_all

/-- C6 fails on the code: the eV → rcm → eV round trip at input `1.0`
returns a value below `1/1000`, not a value within floating-point relative
tolerance of `1.0` (the constant `1.239_841_984_332 * 10e-8` is 1000 times
smaller than the NIST factor `1.2398419843e-4` cited by the module's doc
comment). -/
theorem claim_C6_roundtrip_not_identity :
    Energy.rcm_2_ev (Energy.ev_2_rcm 1) < 1 / 1000 ∧
    0 < Energy.rcm_2_ev (Energy.ev_2_rcm 1) := by
  have h : Energy.rcm_2_ev (Energy.ev_2_rcm 1) =
      (4611686018227708 : ℚ) / 2 ^ 62 := by
    show fmul (fmul 1 Energy.EV_REC_CENTIMETRES_CONVERSION_FACTOR)
      Energy.REC_CENTIMETRES_EV_CONVERSION_FACTOR = _
    simp only [fmul, one_mul, Energy.EV_REC_CENTIMETRES_CONVERSION_FACTOR,
      Energy.REC_CENTIMETRES_EV_CONVERSION_FACTOR]
    rw [fl_ev_factor_lit, fl_ev_factor_idem, fl_rec_mantissa_lit,
      fl_ten_em8_lit, fl_rec_product, fl_roundtrip_product]
  rw [h]
  constructor <;> norm_num

/-- C7: the function under "ang" in the bohr-to-angstrom table is
`bohr_to_ang`, which ignores its prefix argument and returns
`bohr_to_metres(b, "nm") * 10.0`; at `b = 1.0` the result is exactly the
`f64` value `5.29177210903e-1` for every prefix string. -/
theorem claim_C7_ang_conversion :
    Length.CONVERT_BOHR_TO_ANG "ang" = some Length.bohr_to_ang ∧
    (∀ (b : ℚ) (p : String),
      Length.bohr_to_ang b p =
        some (fmul (fdiv (fmul b (fl 5.29177210903e-11)) (fl 1e-9)) (fl 10))) ∧
    (∀ p : String, Length.bohr_to_ang 1 p = some (fl 5.29177210903e-1)) := by
  refine ⟨rfl, fun b p => rfl, fun p => ?_⟩
  show some (fmul (fdiv (fmul 1 Length.BOHR_RADIUS_TO_METRES) Length.NANO) (fl 10)) = _
  simp only [fmul, fdiv, one_mul, Length.BOHR_RADIUS_TO_METRES, Length.NANO]
  rw [fl_bohr_lit, fl_bohr_idem, fl_nano_lit, fl_bohr_div_nano, fl_ten_lit,
    fl_nm_times_ten, fl_ang_target_lit]

/-- C8 as stated is false: at `b = 3.0` the code's angstrom computation
`b * BOHR / NANO * 10.0` and the single-scaling form `b * BOHR * 1e10`
differ (by one ulp) as binary64 computations. -/
theorem claim_C8_counterexample :
    Length.bohr_to_ang 3 "ang" ≠
      some (fmul (fmul 3 (fl 5.29177210903e-11)) (fl 1e10)) := by
  have h1 : Length.bohr_to_ang 3 "ang" =
      some ((7149606869507126 : ℚ) / 2 ^ 52) := by
    show some (fmul (fdiv (fmul 3 Length.BOHR_RADIUS_TO_METRES) Length.NANO) (fl 10)) = _
    simp only [fmul, fdiv, Length.BOHR_RADIUS_TO_METRES, Length.NANO]
    rw [fl_bohr_lit, fl_three_bohr, fl_nano_lit, fl_u_div_nano, fl_ten_lit,
      fl_v_times_ten]
  have h2 : fmul (fmul 3 (fl 5.29177210903e-11)) (fl 1e10) =
      (7149606869507127 : ℚ) / 2 ^ 52 := by
    simp only [fmul]
    rw [fl_bohr_lit, fl_three_bohr, fl_e10_lit, fl_u_times_e10]
  rw [h1, h2]
  simp only [ne_eq, Option.some.injEq]
  norm_num

/-- C8 amended: the two formulas agree in exact (infinitely precise)
arithmetic — for every rational `b`,
`b * BOHR_RADIUS_TO_METRES / 1e-9 * 10 = b * BOHR_RADIUS_TO_METRES * 1e10` —
though the floating-point evaluations can differ in the final ulp. -/
theorem claim_C8_amended_exact_arithmetic :
    ∀ b : ℚ, b * Length.BOHR_RADIUS_TO_METRES / (1e-9 : ℚ) * 10 =
      b * Length.BOHR_RADIUS_TO_METRES * (1e10 : ℚ) := by
  intro b
  rw [div_mul_eq_mul_div, div_eq_iff (by norm_num)]
  ring_nf

/-- C9: every identity table entry returns its input unchanged: the "rcm"
entry of `CONVERT_2_RCM_FROM`, the "eV" entry of `CONVERT_2_EV_FROM`, and
the "bohr" entries of both length tables, the latter ignoring the prefix
and never failing. -/
theorem claim_C9_identity_entries :
    Energy.CONVERT_2_RCM_FROM "rcm" = some Energy.unity ∧
    Energy.CONVERT_2_EV_FROM "eV" = some Energy.unity ∧
    (∀ x : ℚ, Energy.unity x = x) ∧
    Length.CONVERT_BOHR_TO_METRES "bohr" = some Length.unity ∧
    Length.CONVERT_BOHR_TO_ANG "bohr" = some Length.unity ∧
    (∀ (x : ℚ) (p : String), Length.unity x p = some x) :=
  ⟨rfl, rfl, fun _ => rfl, rfl, rfl, fun _ _ => rfl⟩

/-- C10: `bohr_to_ang` is total over its prefix argument: it always returns
a value, because it only ever invokes `bohr_to_metres` with the fixed
recognized prefix "nm", so the panic arm is unreachable. -/
theorem claim_C10_bohr_to_ang_total :
    ∀ (b : ℚ) (p : String), (Length.bohr_to_ang b p).isSome := by
  intro b p
  rfl


end UnitConversion
